import Mathlib

/-!
Verification of the wdmview core: the temporal state reconstructor
(`src/scene/defrag_event.rs`) and the wavelength lane layout engine
(`src/app_state.rs`, `generate_all_lines_for_current_time`).

Shallow embedding conventions:
* `f32` timestamps, times and service attributes that only ever take part in
  comparisons and rational arithmetic are modelled as `ℚ` (every finite `f32`
  value is a rational number and `f32` comparison agrees with the rational
  order).
* screen-space geometry (`glam::Vec2` over `f32`) is modelled over `ℝ`;
  `Vec2::length` is `Real.sqrt`, `Vec2::from_angle` is `(cos θ, sin θ)`.
  Division by zero yields `0` in Lean where IEEE `f32` yields `NaN`; every
  theorem below that touches a normalisation carries hypotheses ruling the
  degenerate case out, except where the point is precisely that the Rust code
  normalises a zero-length vector.
* `HashMap<i32, ServiceData>` is modelled as an association list with
  overwrite-on-insert; only lookup (and, for the layout pass, iteration over
  entries) is consumed downstream.
-/

/-- Mirrors `ServiceData` (src/scene/service.rs).  The struct declaration in
`service.rs` lists `holding_time`, while `generate_all_lines_for_current_time`
(src/app_state.rs:688) reads `service.departure_time`; both fields are kept
here, `departure_time` being the one the layout engine consumes. -/
structure ServiceData where
  service_id : ℕ
  source_id : String
  destination_id : String
  arrival_time : ℚ
  holding_time : ℚ
  departure_time : ℚ
  bit_rate : ℚ
  modulation : Option String
  power : ℚ
  path : List String
  wavelength : ℕ
  snr_requirement : ℚ
  gsnr : ℚ
  utilization : ℚ
deriving DecidableEq

/-- Mirrors the tagged union `AnyEvent` (src/scene/defrag_event.rs).
`reallocation` carries `ReallocationDetails`, i.e. the `defrag_service_id`
(the id the reallocation stems from) and the flattened `ServiceData`;
`releaseExpired` carries `ReleaseExpiredDetails`, i.e. a `departure_time`. -/
inductive AnyEvent where
  | allocation (timestamp : ℚ) (service_id : ℤ) (details : ServiceData)
  | releaseExpired (timestamp : ℚ) (service_id : ℤ) (details_departure_time : ℚ)
  | reallocation (timestamp : ℚ) (service_id : ℤ) (defrag_service_id : ℤ)
      (service : ServiceData)
deriving DecidableEq

/-- Mirrors `AnyEvent::timestamp` (src/scene/defrag_event.rs). -/
def AnyEvent.timestamp : AnyEvent → ℚ
  | .allocation ts _ _ => ts
  | .releaseExpired ts _ _ => ts
  | .reallocation ts _ _ _ => ts

/-- The reconstructed state map `HashMap<i32, ServiceData>`, modelled as an
association list. -/
abbrev SMap : Type := List (ℤ × ServiceData)

/-- `HashMap::insert` (overwrite semantics): drop any existing entry for the
key, then append the new binding. -/
def mapInsert (m : SMap) (k : ℤ) (v : ServiceData) : SMap :=
  (List.filter (fun p => decide (p.1 ≠ k)) m) ++ [(k, v)]

/-- `HashMap::remove`; removing an absent key is a no-op. -/
def mapRemove (m : SMap) (k : ℤ) : SMap :=
  List.filter (fun p => decide (p.1 ≠ k)) m

/-- `HashMap::get`. -/
def mapLookup (m : SMap) (k : ℤ) : Option ServiceData :=
  List.lookup k m

/-- One arm of the `match event` statement in `reconstruct_state_at_time`
(src/scene/defrag_event.rs:108-137): `Allocation` inserts `details`,
`ReleaseExpired` removes `service_id`, `Reallocation` inserts the service
converted from its `ReallocationDetails` (the `defrag_service_id` field is not
consulted). -/
def applyEvent (m : SMap) : AnyEvent → SMap
  | .allocation _ service_id details => mapInsert m service_id details
  | .releaseExpired _ service_id _ => mapRemove m service_id
  | .reallocation _ service_id _ service => mapInsert m service_id service

/-- The `for event in timeline_events { if event.timestamp() > target_time
{ break; } ... }` loop of `reconstruct_state_at_time`. -/
def reconstructLoop (target_time : ℚ) : List AnyEvent → SMap → SMap
  | [], m => m
  | e :: rest, m =>
      if e.timestamp > target_time then m
      else reconstructLoop target_time rest (applyEvent m e)

/-- Mirrors `reconstruct_state_at_time` (src/scene/defrag_event.rs:92-140):
replay the timeline from an empty map, stopping at the first event whose
timestamp exceeds `target_time`. -/
def reconstruct_state_at_time (timeline_events : List AnyEvent)
    (target_time : ℚ) : SMap :=
  reconstructLoop target_time timeline_events []

/-- The sequence of events the replay loop actually applies: the longest
prefix of the log whose timestamps are all `≤ target_time`. -/
def appliedEvents (timeline_events : List AnyEvent) (target_time : ℚ) :
    List AnyEvent :=
  timeline_events.takeWhile (fun e => decide (e.timestamp ≤ target_time))

/-- `Bool`-valued test that an event is a `ReleaseExpired` for `id`. -/
def isReleaseFor (id : ℤ) : AnyEvent → Bool
  | .releaseExpired _ service_id _ => service_id == id
  | _ => false

/-- An event log is sorted when its timestamps are non-decreasing in stored
order (the precondition §4.1/§9 of the spec assumes). -/
def SortedLog (timeline_events : List AnyEvent) : Prop :=
  timeline_events.Pairwise (fun a b => a.timestamp ≤ b.timestamp)

/-- A sample concrete service, used in witnesses and counterexamples. -/
def sampleService : ServiceData :=
  { service_id := 5
    source_id := "A"
    destination_id := "B"
    arrival_time := 0
    holding_time := 20
    departure_time := 20
    bit_rate := 100
    modulation := none
    power := 1
    path := ["A", "B"]
    wavelength := 3
    snr_requirement := 10
    gsnr := 12
    utilization := 1 }

/-- The unsorted log refuting the interval part of C2: the `ReleaseExpired`
for id 5 is stored after a later-stamped event, so it is replayed at target
time 10 although its own timestamp 1 is not in the interval `(1, 10]`. -/
def c2Log : List AnyEvent :=
  [.allocation 0 5 sampleService, .allocation 2 6 sampleService,
   .releaseExpired 1 5 0]

/-- The sorted log used to witness the amended C2. -/
def c2SortedLog : List AnyEvent :=
  [.allocation 0 5 sampleService, .releaseExpired 3 5 0]

/-! ## Geometry model (glam `Vec2` over `f32`, modelled over `ℝ`) -/

/-- 2-D vector, mirroring `glam::Vec2`. -/
structure V2 where
  x : ℝ
  y : ℝ

instance : Add V2 := ⟨fun a b => ⟨a.x + b.x, a.y + b.y⟩⟩

instance : Sub V2 := ⟨fun a b => ⟨a.x - b.x, a.y - b.y⟩⟩

/-- `Vec2 * f32` (componentwise scale). -/
def V2.smul (v : V2) (r : ℝ) : V2 := ⟨v.x * r, v.y * r⟩

/-- `Vec2::length`. -/
noncomputable def V2.length (v : V2) : ℝ := Real.sqrt (v.x ^ 2 + v.y ^ 2)

/-- `Vec2::normalize`.  For a zero-length vector Rust produces NaN components
(division of 0 by 0); in this real-valued model `x / 0 = 0`, so theorems about
normalised directions carry non-degeneracy hypotheses except where the point
is that the Rust code reaches this case. -/
noncomputable def V2.normalize (v : V2) : V2 := ⟨v.x / v.length, v.y / v.length⟩

/-- `Vec2::rotate` (complex multiplication of `self` by `rhs`). -/
def V2.rotate (v r : V2) : V2 :=
  ⟨v.x * r.x - v.y * r.y, v.y * r.x + v.x * r.y⟩

/-- `Vec2::from_angle`. -/
noncomputable def V2.fromAngle (θ : ℝ) : V2 := ⟨Real.cos θ, Real.sin θ⟩

/-- `f32::EPSILON = 2⁻²³`. -/
noncomputable def F32_EPSILON : ℝ := 1 / 2 ^ 23

/-- `BASE_NODE_RADIUS` (src/app_state.rs:21). -/
noncomputable def BASE_NODE_RADIUS : ℝ := 20

/-- `LINK_BOUNDARY_ROTATE_ANGLE = π/16` (src/app_state.rs:606). -/
noncomputable def LINK_BOUNDARY_ROTATE_ANGLE : ℝ := Real.pi / 16

/-- `SERVICE_MAX_SPREAD_ANGLE = LINK_BOUNDARY_ROTATE_ANGLE * 0.95`
(src/app_state.rs:682). -/
noncomputable def SERVICE_MAX_SPREAD_ANGLE : ℝ :=
  LINK_BOUNDARY_ROTATE_ANGLE * 0.95

/-- `HIGHLIGHT_LINE_THICKNESS` (src/app_state.rs:607). -/
noncomputable def HIGHLIGHT_LINE_THICKNESS : ℝ := 0.5

/-- `MAX_WAVELENGTHS` (src/app_state.rs:681). -/
def MAX_WAVELENGTHS : ℕ := 80

/-- `(wavelength as f32).min((MAX_WAVELENGTHS - 1) as f32)`
(src/app_state.rs:692).  `wavelength` is a `u32`, hence non-negative. -/
def effective_wavelength (wavelength : ℕ) : ℚ :=
  min (wavelength : ℚ) ((MAX_WAVELENGTHS : ℚ) - 1)

/-- `hue_color = (effective_wavelength + 0.5) / MAX_WAVELENGTHS * 180 + 30`
(src/app_state.rs:694). -/
def hue_color (wavelength : ℕ) : ℚ :=
  (effective_wavelength wavelength + 0.5) / (MAX_WAVELENGTHS : ℚ) * 180 + 30

/-- `normalized_wavelength_factor` (src/app_state.rs:716). -/
def normalized_wavelength_factor (wavelength : ℕ) : ℚ :=
  (effective_wavelength wavelength - ((MAX_WAVELENGTHS : ℚ) - 1) / 2) /
    (((MAX_WAVELENGTHS : ℚ) - 1) / 2)

/-- The signed spread factor of index `eff` for a channel capacity of `W`
carriers: the `normalized_wavelength_factor` computation with
`MAX_WAVELENGTHS` abstracted as the parameter `W`. -/
def spread_factor (W : ℕ) (eff : ℚ) : ℚ :=
  (eff - ((W : ℚ) - 1) / 2) / (((W : ℚ) - 1) / 2)

/-- `wavelength_rotate_angle = normalized_wavelength_factor *
SERVICE_MAX_SPREAD_ANGLE` (src/app_state.rs:717). -/
noncomputable def wavelength_rotate_angle (wavelength : ℕ) : ℝ :=
  (normalized_wavelength_factor wavelength : ℝ) * SERVICE_MAX_SPREAD_ANGLE

/-- `upward_sacle [sic] = if normalized_dir.y >= 0.0 { 1.0 } else { -1.0 }`
(src/app_state.rs:738). -/
noncomputable def upwardScale (nd : V2) : ℝ := if nd.y ≥ 0 then 1 else -1

/-- A colour value as constructed by the Rust code, kept symbolic: either an
`Srgba::rgb_u8` constant or an `Oklcha::lch` triple.  (The conversion to
linear RGBA is injective plumbing the claims never inspect.) -/
inductive ColorSpec where
  | srgbU8 (r g b : ℕ)
  | oklch (l c h : ℚ)
deriving DecidableEq

/-- Default node colour `Srgba::rgb_u8(0x00, 0x5d, 0x5d)`
(src/app_state.rs:626). -/
def defaultNodeColor : ColorSpec := .srgbU8 0x00 0x5d 0x5d

/-- `highlight_node_color = Srgba::rgb_u8(0xd2, 0xa1, 0x06)`
(src/app_state.rs:471). -/
def highlightNodeColor : ColorSpec := .srgbU8 0xd2 0xa1 0x06

/-- `link_boundary_color = Srgba::rgb_u8(180, 180, 180)`
(src/app_state.rs:643). -/
def linkBoundaryColor : ColorSpec := .srgbU8 180 180 180

/-- `LineVertex` (position + colour) as pushed into `line_vertices` /
`highlight_line_vertices`. -/
structure LineVertex where
  position : V2
  color : ColorSpec

/-- `TextLabel` as pushed into `world_text_labels` during highlight drawing. -/
structure TextLabel where
  content : String
  radius_scale : ℝ
  position : V2

/-- The three output streams `generate_all_lines_for_current_time` appends to:
`line_vertices`, `highlight_line_vertices` and `world_text_labels`. -/
structure GenOut where
  line : List LineVertex
  hline : List LineVertex
  labels : List TextLabel

def GenOut.empty : GenOut := ⟨[], [], []⟩

def GenOut.append (a b : GenOut) : GenOut :=
  ⟨a.line ++ b.line, a.hline ++ b.hline, a.labels ++ b.labels⟩

def joinOuts (l : List GenOut) : GenOut := l.foldr GenOut.append GenOut.empty

/-- Mirrors `ConnectionData` (src/scene/connection.rs). -/
structure Connection where
  from_node : String
  to_node : String
  connection_id : String

/-- The inputs `generate_all_lines_for_current_time` reads from `self`:
node positions (for id lookup via `node_id_to_idx` + `circle_instances`),
the static links, the event log, the selected time and the highlight list. -/
structure Scene where
  nodes : List (String × V2)
  all_connections : List Connection
  all_events : List AnyEvent
  current_time_selection : ℚ
  highlight_service_id_list : Option (List ℤ)

/-- `node_id_to_idx.get(id)` followed by `circle_instances[idx].position`. -/
def Scene.nodePos (s : Scene) (id : String) : Option V2 :=
  s.nodes.lookup id

/-- `highlight_service_id_list.iter().any(|&srv_id| srv_id == *service_id)`
nested in the surrounding `match` (src/app_state.rs:696-699). -/
def isHighlightedIn (hl : Option (List ℤ)) (service_id : ℤ) : Bool :=
  match hl with
  | some l => l.any (fun srv_id => srv_id == service_id)
  | none => false

/-- The service colour selection (src/app_state.rs:701-711): highlighted
services get `Oklcha::lch(0.75, 0.2, hue)`; otherwise the luminance is `0.6`
when no highlight list is set (`highlight_service_id_list.iter().len() == 0`,
i.e. the option is `None`) and `0.4` when one is. -/
def serviceColor (hl : Option (List ℤ)) (is_highlighted : Bool)
    (wavelength : ℕ) : ColorSpec :=
  if is_highlighted then .oklch 0.75 0.2 (hue_color wavelength)
  else match hl with
    | none => .oklch 0.6 0.11 (hue_color wavelength)
    | some _ => .oklch 0.4 0.11 (hue_color wavelength)

open Classical in
/-- Mirrors `add_thick_line_segment` (src/app_state.rs:566-599): emit the six
vertices of the two triangles of a thick quad, or nothing for a (near)
zero-length segment. -/
noncomputable def add_thick_line_segment (start_pos end_pos : V2)
    (color : ColorSpec) (thickness : ℝ) : List LineVertex :=
  let dir := end_pos - start_pos
  if dir.length < F32_EPSILON then []
  else
    let normalized_dir := dir.normalize
    let perpendicular_dir : V2 := ⟨-normalized_dir.y, normalized_dir.x⟩
    let off := perpendicular_dir.smul (thickness / 2)
    [⟨start_pos - off, color⟩, ⟨start_pos + off, color⟩,
     ⟨end_pos + off, color⟩, ⟨start_pos - off, color⟩,
     ⟨end_pos + off, color⟩, ⟨end_pos - off, color⟩]

open Classical in
/-- Step 2, one iteration of the link loop (src/app_state.rs:638-678): the two
boundary segments (four line vertices) of a link, skipped when an endpoint id
is unknown or the endpoints are less than `f32::EPSILON` apart. -/
noncomputable def linkBody (scene : Scene) (link : Connection) : GenOut :=
  match scene.nodePos link.from_node, scene.nodePos link.to_node with
  | some source_position_center, some destination_position_center =>
      let dir_vec := destination_position_center - source_position_center
      if dir_vec.length < F32_EPSILON then GenOut.empty
      else
        let normalized_dir := dir_vec.normalize
        let radius_dir_outward := normalized_dir.smul BASE_NODE_RADIUS
        let rotate_vector := V2.fromAngle LINK_BOUNDARY_ROTATE_ANGLE
        let reverse_rotate_vector := V2.fromAngle (-LINK_BOUNDARY_ROTATE_ANGLE)
        { line :=
            [⟨source_position_center + radius_dir_outward.rotate rotate_vector,
                linkBoundaryColor⟩,
             ⟨destination_position_center -
                radius_dir_outward.rotate reverse_rotate_vector,
                linkBoundaryColor⟩,
             ⟨source_position_center +
                radius_dir_outward.rotate reverse_rotate_vector,
                linkBoundaryColor⟩,
             ⟨destination_position_center -
                radius_dir_outward.rotate rotate_vector,
                linkBoundaryColor⟩]
          hline := []
          labels := [] }
  | _, _ => GenOut.empty

open Classical in
/-- Step 5, one iteration of the per-hop loop over `i` in
`0..(path.len() - 1)` (src/app_state.rs:719-760): the wavelength-lane segment
for the hop `path[i] → path[i+1]`, skipped when a node id is unknown or the
centers are less than `f32::EPSILON` apart; a highlighted service emits a
thick quad plus hop-order text labels instead of a thin segment. -/
noncomputable def hopBody (scene : Scene) (svc : ServiceData)
    (is_highlighted : Bool) (color : ColorSpec) (angle : ℝ) (i : ℕ) : GenOut :=
  let source_node_id := svc.path.getD i ""
  let target_node_id := svc.path.getD (i + 1) ""
  match scene.nodePos source_node_id, scene.nodePos target_node_id with
  | some source_pos_center, some target_pos_center =>
      let dir_vec := target_pos_center - source_pos_center
      if dir_vec.length < F32_EPSILON then GenOut.empty
      else
        let normalized_dir := dir_vec.normalize
        let radius_vec_along_link := normalized_dir.smul BASE_NODE_RADIUS
        let upward_sacle := upwardScale normalized_dir
        let service_start_pos := source_pos_center +
          radius_vec_along_link.rotate (V2.fromAngle (angle * upward_sacle))
        let service_end_pos := target_pos_center -
          radius_vec_along_link.rotate (V2.fromAngle (-(angle * upward_sacle)))
        if is_highlighted then
          { line := []
            hline := add_thick_line_segment service_start_pos service_end_pos
              color HIGHLIGHT_LINE_THICKNESS
            labels :=
              [⟨toString i, BASE_NODE_RADIUS, source_pos_center⟩] ++
              (if i = svc.path.length - 2 then
                [⟨toString (i + 1), BASE_NODE_RADIUS, target_pos_center⟩]
              else []) }
        else
          { line := [⟨service_start_pos, color⟩, ⟨service_end_pos, color⟩]
            hline := []
            labels := [] }
  | _, _ => GenOut.empty

open Classical in
/-- Step 6, one iteration of the interior-elbow loop over `i` in
`0..(path.len() - 2)` (src/app_state.rs:763-804): the connector inside node
`path[i+1]` joining the incoming lane position to the outgoing one.  Note the
Rust code performs no zero-length check here: `source_middle_dir_vec` is
`target - middle` and `middle_target_dir_vec` is `middle - source` (the names
are swapped relative to their contents), and both are normalised
unconditionally. -/
noncomputable def elbowBody (scene : Scene) (svc : ServiceData)
    (is_highlighted : Bool) (color : ColorSpec) (angle : ℝ) (i : ℕ) : GenOut :=
  let source_node_id := svc.path.getD i ""
  let middle_node_id := svc.path.getD (i + 1) ""
  let target_node_id := svc.path.getD (i + 2) ""
  match scene.nodePos source_node_id, scene.nodePos middle_node_id,
      scene.nodePos target_node_id with
  | some source_pos_center, some middle_pos_center, some target_pos_center =>
      let source_middle_dir_vec := target_pos_center - middle_pos_center
      let middle_target_dir_vec := middle_pos_center - source_pos_center
      let normalized_source_middle_dir := source_middle_dir_vec.normalize
      let normalized_middle_target_dir := middle_target_dir_vec.normalize
      let radius_source_middle_vec_along_link :=
        normalized_source_middle_dir.smul BASE_NODE_RADIUS
      let radius_middle_target_vec_along_link :=
        normalized_middle_target_dir.smul BASE_NODE_RADIUS
      let source_middle_upward_sacle := upwardScale normalized_source_middle_dir
      let middle_target_upward_sacle := upwardScale normalized_middle_target_dir
      let middle_start_pos := middle_pos_center +
        radius_source_middle_vec_along_link.rotate
          (V2.fromAngle (angle * source_middle_upward_sacle))
      let middle_end_pos := middle_pos_center -
        radius_middle_target_vec_along_link.rotate
          (V2.fromAngle (-(angle * middle_target_upward_sacle)))
      if is_highlighted then
        { line := []
          hline := add_thick_line_segment middle_start_pos middle_end_pos
            color HIGHLIGHT_LINE_THICKNESS
          labels := [] }
      else
        { line := [⟨middle_start_pos, color⟩, ⟨middle_end_pos, color⟩]
          hline := []
          labels := [] }
  | _, _, _ => GenOut.empty

/-- Step 3-6 for a single reconstructed service (src/app_state.rs:686-806):
the activity-window gate `arrival_time ≤ t < departure_time` guards the whole
body; inside it, the per-hop loop then the interior-elbow loop run. -/
noncomputable def serviceOut (scene : Scene) (service_id : ℤ)
    (svc : ServiceData) : GenOut :=
  if svc.arrival_time ≤ scene.current_time_selection ∧
      scene.current_time_selection < svc.departure_time then
    let is_highlighted := isHighlightedIn scene.highlight_service_id_list
      service_id
    let color := serviceColor scene.highlight_service_id_list is_highlighted
      svc.wavelength
    let angle := wavelength_rotate_angle svc.wavelength
    (joinOuts ((List.range (svc.path.length - 1)).map
        (hopBody scene svc is_highlighted color angle))).append
      (joinOuts ((List.range (svc.path.length - 2)).map
        (elbowBody scene svc is_highlighted color angle)))
  else GenOut.empty

/-- `nodes_in_highlighted_services` (src/app_state.rs:611-622): all node ids
on the paths of highlighted services found in the reconstructed snapshot. -/
def nodesInHighlightedServices (scene : Scene) : List String :=
  match scene.highlight_service_id_list with
  | some highlight_ids =>
      highlight_ids.flatMap (fun service_id =>
        match mapLookup (reconstruct_state_at_time scene.all_events
            scene.current_time_selection) service_id with
        | some service => service.path
        | none => [])
  | none => []

/-- Step 1, node recolouring (src/app_state.rs:624-634): every node is reset
to the default colour, then nodes touched by highlighted services get the
highlight colour. -/
def nodeColorAfter (scene : Scene) (node_id : String) : ColorSpec :=
  if node_id ∈ nodesInHighlightedServices scene then highlightNodeColor
  else defaultNodeColor

/-- The whole `generate_all_lines_for_current_time` line output: link
boundaries first, then every reconstructed service in snapshot order. -/
noncomputable def generate_all_lines (scene : Scene) : GenOut :=
  (joinOuts (scene.all_connections.map (linkBody scene))).append
    (joinOuts ((reconstruct_state_at_time scene.all_events
        scene.current_time_selection).map
      (fun p => serviceOut scene p.1 p.2)))

/-- A three-hop-node service `A → B → C` used by the geometry claims. -/
def pathABCService : ServiceData :=
  { sampleService with path := ["A", "B", "C"] }

/-- A service whose path references node ids absent from the topology. -/
def c3Service : ServiceData :=
  { sampleService with path := ["X", "Y"], departure_time := 10 }

/-- A scene with no nodes at all, queried at time 5. -/
def c3Scene : Scene :=
  { nodes := []
    all_connections := []
    all_events := []
    current_time_selection := 5
    highlight_service_id_list := none }

/-- A scene where nodes `A` and `B` coincide and `C` sits one unit away. -/
noncomputable def c4Scene : Scene :=
  { nodes := [("A", ⟨0, 0⟩), ("B", ⟨0, 0⟩), ("C", ⟨1, 0⟩)]
    all_connections := [⟨"A", "B", "ab"⟩]
    all_events := []
    current_time_selection := 0
    highlight_service_id_list := none }

/-- A scene with three pairwise-distinct node positions for the elbow claim. -/
noncomputable def c9Scene : Scene :=
  { nodes := [("A", ⟨0, 0⟩), ("B", ⟨1, 0⟩), ("C", ⟨1, 1⟩)]
    all_connections := []
    all_events := []
    current_time_selection := 0
    highlight_service_id_list := none }

/-! ## Helper lemmas: the association-list model of `HashMap` -/

theorem lookup_filter_ne_self (m : SMap) (k : ℤ) :
    List.lookup k (List.filter (fun p => decide (p.1 ≠ k)) m) = none := by
  induction m with
  | nil => rfl
  | cons a m ih =>
      obtain ⟨a1, a2⟩ := a
      by_cases h : a1 = k
      · simpa [List.filter_cons, h] using ih
      · simpa [List.filter_cons, h, List.lookup, beq_false_of_ne (Ne.symm h)]
          using ih

theorem lookup_append_of_none {m₁ : SMap} (m₂ : SMap) (k : ℤ)
    (h : List.lookup k m₁ = none) :
    List.lookup k (m₁ ++ m₂) = List.lookup k m₂ := by
  induction m₁ with
  | nil => rfl
  | cons a m ih =>
      obtain ⟨a1, a2⟩ := a
      by_cases hk : k = a1
      · simp [List.lookup, hk] at h
      · simp only [List.lookup, beq_false_of_ne hk, List.cons_append] at h ⊢
        exact ih h

theorem mapLookup_insert_self (m : SMap) (k : ℤ) (v : ServiceData) :
    mapLookup (mapInsert m k v) k = some v := by
  unfold mapLookup mapInsert
  rw [lookup_append_of_none _ k (lookup_filter_ne_self m k)]
  simp [List.lookup]

theorem mapLookup_insert_ne (m : SMap) (k k' : ℤ) (v : ServiceData)
    (h : k' ≠ k) : mapLookup (mapInsert m k v) k' = mapLookup m k' := by
  unfold mapLookup mapInsert
  induction m with
  | nil => simp [List.lookup, beq_false_of_ne h]
  | cons a m ih =>
      obtain ⟨a1, a2⟩ := a
      by_cases hk : a1 = k
      · subst hk
        simpa [List.filter_cons, List.lookup, beq_false_of_ne h] using ih
      · by_cases hk' : k' = a1
        · subst hk'
          simp [List.filter_cons, hk, List.lookup]
        · simpa [List.filter_cons, hk, List.lookup, beq_false_of_ne hk']
            using ih

theorem mapLookup_remove_self (m : SMap) (k : ℤ) :
    mapLookup (mapRemove m k) k = none :=
  lookup_filter_ne_self m k

theorem mapLookup_remove_ne (m : SMap) (k k' : ℤ) (h : k' ≠ k) :
    mapLookup (mapRemove m k) k' = mapLookup m k' := by
  unfold mapLookup mapRemove
  induction m with
  | nil => rfl
  | cons a m ih =>
      obtain ⟨a1, a2⟩ := a
      by_cases hk : a1 = k
      · subst hk
        simpa [List.filter_cons, List.lookup, beq_false_of_ne h] using ih
      · by_cases hk' : k' = a1
        · simp [List.filter_cons, hk, List.lookup, hk']
        · simpa [List.filter_cons, hk, List.lookup, beq_false_of_ne hk']
            using ih

theorem mapLookup_applyEvent (m : SMap) (e : AnyEvent) (k : ℤ) :
    mapLookup (applyEvent m e) k =
      match e with
      | .allocation _ service_id details =>
          if k = service_id then some details else mapLookup m k
      | .releaseExpired _ service_id _ =>
          if k = service_id then none else mapLookup m k
      | .reallocation _ service_id _ service =>
          if k = service_id then some service else mapLookup m k := by
  cases e with
  | allocation ts id d =>
      by_cases h : k = id
      · subst h; simp [applyEvent, mapLookup_insert_self]
      · simp [applyEvent, h, mapLookup_insert_ne _ _ _ _ h]
  | releaseExpired ts id dep =>
      by_cases h : k = id
      · subst h; simp [applyEvent, mapLookup_remove_self]
      · simp [applyEvent, h, mapLookup_remove_ne _ _ _ h]
  | reallocation ts id fromId svc =>
      by_cases h : k = id
      · subst h; simp [applyEvent, mapLookup_insert_self]
      · simp [applyEvent, h, mapLookup_insert_ne _ _ _ _ h]

/-! ## Helper lemmas: the replay loop -/

theorem reconstructLoop_eq_foldl (t : ℚ) (l : List AnyEvent) (m : SMap) :
    reconstructLoop t l m =
      (l.takeWhile (fun e => decide (e.timestamp ≤ t))).foldl applyEvent m := by
  induction l generalizing m with
  | nil => rfl
  | cons e rest ih =>
      by_cases h : e.timestamp > t
      · have hd : decide (e.timestamp ≤ t) = false := by
          simp [not_le.mpr h]
        simp [reconstructLoop, h, List.takeWhile_cons, hd]
      · have hle : e.timestamp ≤ t := not_lt.mp h
        simp [reconstructLoop, h, List.takeWhile_cons, hle, ih]

theorem reconstruct_eq_foldl_applied (l : List AnyEvent) (t : ℚ) :
    reconstruct_state_at_time l t = (appliedEvents l t).foldl applyEvent [] :=
  reconstructLoop_eq_foldl t l []

theorem reconstructLoop_append (t : ℚ) (p q : List AnyEvent) (m : SMap)
    (h : ∀ e ∈ p, e.timestamp ≤ t) :
    reconstructLoop t (p ++ q) m = reconstructLoop t q (p.foldl applyEvent m) := by
  induction p generalizing m with
  | nil => rfl
  | cons e rest ih =>
      have he : ¬(e.timestamp > t) := not_lt.mpr (h e (List.mem_cons_self e rest))
      simp only [List.cons_append, reconstructLoop, he, if_false, List.foldl_cons]
      exact ih (applyEvent m e) (fun x hx => h x (List.mem_cons_of_mem e hx))

theorem appliedEvents_split (l : List AnyEvent) (t1 t2 : ℚ) (h12 : t1 ≤ t2) :
    appliedEvents l t2 =
      appliedEvents l t1 ++
        appliedEvents (l.dropWhile (fun e => decide (e.timestamp ≤ t1))) t2 := by
  induction l with
  | nil => rfl
  | cons e rest ih =>
      by_cases h : e.timestamp ≤ t1
      · have h2 : e.timestamp ≤ t2 := le_trans h h12
        have ih' := ih
        simp only [appliedEvents] at ih'
        simp [appliedEvents, List.takeWhile_cons, List.dropWhile_cons, h, h2,
          ih']
      · simp [appliedEvents, List.takeWhile_cons, List.dropWhile_cons, h]

theorem dropWhile_timestamp_gt (l : List AnyEvent) (t1 : ℚ) (hs : SortedLog l)
    (e : AnyEvent)
    (he : e ∈ l.dropWhile (fun e => decide (e.timestamp ≤ t1))) :
    t1 < e.timestamp := by
  induction l with
  | nil => simp at he
  | cons a rest ih =>
      rw [List.dropWhile_cons] at he
      by_cases h : a.timestamp ≤ t1
      · simp only [h, decide_eq_true_eq, if_pos] at he
        exact ih (List.pairwise_cons.mp hs).2 he
      · rw [if_neg (by simpa using h)] at he
        rcases List.mem_cons.mp he with rfl | hmem
        · exact not_le.mp h
        · exact lt_of_lt_of_le (not_le.mp h)
            ((List.pairwise_cons.mp hs).1 e hmem)

theorem release_of_foldl_none (id : ℤ) (es : List AnyEvent) :
    ∀ m : SMap, mapLookup m id ≠ none →
      mapLookup (es.foldl applyEvent m) id = none →
      ∃ ts dep, AnyEvent.releaseExpired ts id dep ∈ es := by
  induction es with
  | nil => intro m h1 h2; exact absurd h2 h1
  | cons e rest ih =>
      intro m h1 h2
      rw [List.foldl_cons] at h2
      by_cases hmid : mapLookup (applyEvent m e) id = none
      · cases e with
        | allocation ts eid d =>
            exfalso
            rw [mapLookup_applyEvent] at hmid
            dsimp only at hmid
            by_cases hk : id = eid
            · rw [if_pos hk] at hmid; exact Option.some_ne_none d hmid
            · rw [if_neg hk] at hmid; exact h1 hmid
        | releaseExpired ts eid dep =>
            by_cases hk : id = eid
            · subst hk
              exact ⟨ts, dep, List.mem_cons_self _ _⟩
            · exfalso
              rw [mapLookup_applyEvent] at hmid
              dsimp only at hmid
              rw [if_neg hk] at hmid
              exact h1 hmid
        | reallocation ts eid fromId svc =>
            exfalso
            rw [mapLookup_applyEvent] at hmid
            dsimp only at hmid
            by_cases hk : id = eid
            · rw [if_pos hk] at hmid; exact Option.some_ne_none svc hmid
            · rw [if_neg hk] at hmid; exact h1 hmid
      · obtain ⟨ts, dep, hmem⟩ := ih (applyEvent m e) hmid h2
        exact ⟨ts, dep, List.mem_cons_of_mem e hmem⟩

theorem mem_appliedEvents_le {l : List AnyEvent} {t : ℚ} {e : AnyEvent}
    (h : e ∈ appliedEvents l t) : e.timestamp ≤ t := by
  have := List.mem_takeWhile_imp h
  simpa using this

/-! ## Helper lemmas: joined layout output streams -/

theorem joinOuts_line (l : List GenOut) :
    (joinOuts l).line = l.flatMap GenOut.line := by
  induction l with
  | nil => rfl
  | cons a l ih =>
      simp only [joinOuts] at ih
      simp [joinOuts, GenOut.append, List.flatMap_cons, ih]

theorem joinOuts_hline (l : List GenOut) :
    (joinOuts l).hline = l.flatMap GenOut.hline := by
  induction l with
  | nil => rfl
  | cons a l ih =>
      simp only [joinOuts] at ih
      simp [joinOuts, GenOut.append, List.flatMap_cons, ih]

theorem joinOuts_labels (l : List GenOut) :
    (joinOuts l).labels = l.flatMap GenOut.labels := by
  induction l with
  | nil => rfl
  | cons a l ih =>
      simp only [joinOuts] at ih
      simp [joinOuts, GenOut.append, List.flatMap_cons, ih]

/-! ## Claim theorems: temporal state reconstructor -/

/-- C1: `reconstruct_state_at_time` applies, in stored order, exactly the
longest prefix of the log whose timestamps are `≤ target_time` (an event with
timestamp exactly equal to the target is applied; nothing at or beyond the
first out-of-range event is).  Each `Allocation`/`Reallocation` overwrites the
map entry keyed by its own `service_id` (the `defrag_service_id` a
reallocation stems from is not applied to the map), each `ReleaseExpired`
removes its `service_id`, removal of an absent id being a no-op.  For the log
`[Allocation{t=0, id=5, service=S}, ReleaseExpired{t=10, id=5}]`,
reconstruction at time 5 maps id 5 to `S` and reconstruction at time 10 does
not contain id 5. -/
theorem C1_replay_semantics :
    (∀ (timeline_events : List AnyEvent) (target_time : ℚ),
      reconstruct_state_at_time timeline_events target_time =
        (appliedEvents timeline_events target_time).foldl applyEvent []) ∧
    (∀ (m : SMap) (e : AnyEvent) (k : ℤ),
      mapLookup (applyEvent m e) k =
        match e with
        | .allocation _ service_id details =>
            if k = service_id then some details else mapLookup m k
        | .releaseExpired _ service_id _ =>
            if k = service_id then none else mapLookup m k
        | .reallocation _ service_id _ service =>
            if k = service_id then some service else mapLookup m k) ∧
    (∀ (S : ServiceData) (dep : ℚ),
      mapLookup (reconstruct_state_at_time
        [.allocation 0 5 S, .releaseExpired 10 5 dep] 5) 5 = some S ∧
      mapLookup (reconstruct_state_at_time
        [.allocation 0 5 S, .releaseExpired 10 5 dep] 10) 5 = none) := by
  refine ⟨reconstruct_eq_foldl_applied, mapLookup_applyEvent, ?_⟩
  intro S dep
  constructor
  · norm_num [reconstruct_state_at_time, reconstructLoop, AnyEvent.timestamp,
      applyEvent, mapInsert, mapRemove, mapLookup, List.lookup]
  · norm_num [reconstruct_state_at_time, reconstructLoop, AnyEvent.timestamp,
      applyEvent, mapInsert, mapRemove, mapLookup, List.lookup,
      List.filter_cons]

/-- C2 counterexample: with `t1 = 1 ≤ t2 = 10`, id 5 is present in the
reconstruction at `t1` and absent at `t2`, yet no `ReleaseExpired` for id 5
anywhere in the replayed events has timestamp in `(t1, t2]` — the claim's
interval conclusion fails for an unsorted log. -/
theorem C2_counterexample :
    (1 : ℚ) ≤ 10 ∧
    mapLookup (reconstruct_state_at_time c2Log 1) 5 = some sampleService ∧
    mapLookup (reconstruct_state_at_time c2Log 10) 5 = none ∧
    (∀ e ∈ appliedEvents c2Log 10, isReleaseFor 5 e = true →
      ¬(1 < e.timestamp ∧ e.timestamp ≤ 10)) := by
  decide

/-- C2 (amended): for `t1 ≤ t2` the events applied at `t1` are always a
prefix of the events applied at `t2`; and provided the log is sorted by
non-decreasing timestamp (the precondition the replay loop assumes), a
service id present at `t1` and absent at `t2` must have had a
`ReleaseExpired` for that id with timestamp in `(t1, t2]` among the replayed
events. -/
theorem C2_monotonic_replay :
    ∀ (timeline_events : List AnyEvent) (t1 t2 : ℚ), t1 ≤ t2 →
      (∃ ext, appliedEvents timeline_events t1 ++ ext =
        appliedEvents timeline_events t2) ∧
      (SortedLog timeline_events →
        ∀ (id : ℤ) (s : ServiceData),
          mapLookup (reconstruct_state_at_time timeline_events t1) id =
            some s →
          mapLookup (reconstruct_state_at_time timeline_events t2) id =
            none →
          ∃ ts dep, AnyEvent.releaseExpired ts id dep ∈
              appliedEvents timeline_events t2 ∧ t1 < ts ∧ ts ≤ t2) := by
  intro l t1 t2 h12
  have hsplit := appliedEvents_split l t1 t2 h12
  refine ⟨⟨_, hsplit.symm⟩, ?_⟩
  intro hs id s h1 h2
  rw [reconstruct_eq_foldl_applied, hsplit, List.foldl_append] at h2
  rw [reconstruct_eq_foldl_applied] at h1
  obtain ⟨ts, dep, hmem⟩ :=
    release_of_foldl_none id _ _ (by simp [h1]) h2
  refine ⟨ts, dep, ?_, ?_, ?_⟩
  · rw [hsplit]
    exact List.mem_append_right _ hmem
  · have hmem' : AnyEvent.releaseExpired ts id dep ∈
        l.dropWhile (fun e => decide (e.timestamp ≤ t1)) :=
      (List.takeWhile_sublist _).subset hmem
    simpa [AnyEvent.timestamp] using dropWhile_timestamp_gt l t1 hs _ hmem'
  · simpa [AnyEvent.timestamp] using mem_appliedEvents_le hmem

/-- Witness for C2: instantiating the amended monotonic-replay theorem on a
concrete sorted log, with every hypothesis discharged by evaluation. -/
theorem C2_monotonic_replay_witness :
    ∃ ts dep, AnyEvent.releaseExpired ts 5 dep ∈ appliedEvents c2SortedLog 10 ∧
      (1 : ℚ) < ts ∧ ts ≤ 10 :=
  (C2_monotonic_replay c2SortedLog 1 10 (by norm_num)).2
    (by unfold SortedLog; decide) 5
    sampleService (by decide) (by decide)

/-- C10: events sharing one timestamp `ts ≤ target_time` are applied strictly
in stored log order, so the map entry for their common id is decided by the
last of them: an `Allocation` followed at the identical timestamp by a
`ReleaseExpired` for the same id leaves the id absent, while the reverse
order leaves it present — after any prefix of in-range events. -/
theorem C10_same_timestamp_order :
    ∀ (p : List AnyEvent) (ts target : ℚ) (id : ℤ) (svc : ServiceData)
      (dep : ℚ), ts ≤ target → (∀ e ∈ p, e.timestamp ≤ target) →
      mapLookup (reconstruct_state_at_time
        (p ++ [.allocation ts id svc, .releaseExpired ts id dep]) target)
          id = none ∧
      mapLookup (reconstruct_state_at_time
        (p ++ [.releaseExpired ts id dep, .allocation ts id svc]) target)
          id = some svc := by
  intro p ts target id svc dep hts hp
  have hng : ¬(ts > target) := not_lt.mpr hts
  unfold reconstruct_state_at_time
  rw [reconstructLoop_append _ _ _ _ hp, reconstructLoop_append _ _ _ _ hp]
  constructor
  · simp [reconstructLoop, AnyEvent.timestamp, hng, applyEvent,
      mapLookup_remove_self]
  · simp [reconstructLoop, AnyEvent.timestamp, hng, applyEvent,
      mapLookup_insert_self]

/-- Witness for C10 at a concrete log: a prefix event at time 0, then an
allocation and a release for id 5 both stamped 3, queried at time 4. -/
theorem C10_same_timestamp_order_witness :
    mapLookup (reconstruct_state_at_time
      ([AnyEvent.allocation 0 7 sampleService] ++
        [.allocation 3 5 sampleService, .releaseExpired 3 5 0]) 4) 5 = none ∧
    mapLookup (reconstruct_state_at_time
      ([AnyEvent.allocation 0 7 sampleService] ++
        [.releaseExpired 3 5 0, .allocation 3 5 sampleService]) 4) 5 =
      some sampleService :=
  C10_same_timestamp_order [.allocation 0 7 sampleService] 3 4 5 sampleService
    0 (by norm_num) (by decide)

/-! ## Claim theorems: wavelength lane arithmetic -/

/-- C6: whatever the wavelength index (clamping included), the angular lane
offset satisfies `|angle| ≤ SERVICE_MAX_SPREAD_ANGLE`, and that margin
`LINK_BOUNDARY_ROTATE_ANGLE * 0.95` is strictly below the boundary half-angle
`π/16`, so channel lanes never reach the Step-2 boundary rays. -/
theorem C6_no_overlap_bound :
    ∀ wavelength : ℕ,
      |wavelength_rotate_angle wavelength| ≤ SERVICE_MAX_SPREAD_ANGLE ∧
      SERVICE_MAX_SPREAD_ANGLE < LINK_BOUNDARY_ROTATE_ANGLE := by
  intro w
  have hL : (0 : ℝ) < LINK_BOUNDARY_ROTATE_ANGLE := by
    unfold LINK_BOUNDARY_ROTATE_ANGLE
    positivity
  have hf : |normalized_wavelength_factor w| ≤ 1 := by
    unfold normalized_wavelength_factor effective_wavelength MAX_WAVELENGTHS
    push_cast
    rcases min_cases (w : ℚ) ((80 : ℚ) - 1) with ⟨h, hle⟩ | ⟨h, hlt⟩ <;> rw [h]
    · rw [abs_le]
      have h0 : (0 : ℚ) ≤ (w : ℚ) := Nat.cast_nonneg w
      constructor
      · rw [le_div_iff₀ (by norm_num)]
        linarith
      · rw [div_le_iff₀ (by norm_num)]
        linarith
    · norm_num
  have hS : (0 : ℝ) ≤ SERVICE_MAX_SPREAD_ANGLE := by
    unfold SERVICE_MAX_SPREAD_ANGLE
    nlinarith
  constructor
  · unfold wavelength_rotate_angle
    rw [abs_mul, abs_of_nonneg hS]
    have h1 : |((normalized_wavelength_factor w : ℚ) : ℝ)| ≤ 1 := by
      rw [← Rat.cast_abs]
      exact_mod_cast hf
    nlinarith
  · unfold SERVICE_MAX_SPREAD_ANGLE
    nlinarith

/-- C7: for an odd channel capacity `W` the middle index `(W-1)/2` has spread
factor exactly `0`; for every pair of in-range indices `i` and `W-1-i` the
spread factors are exact negatives; and at the code's fixed capacity
`MAX_WAVELENGTHS = 80` the pairing holds for `normalized_wavelength_factor`
itself. -/
theorem C7_wavelength_symmetry :
    ∀ W : ℕ, 1 < W →
      (Odd W → spread_factor W (((W - 1) / 2 : ℕ) : ℚ) = 0) ∧
      (∀ i : ℕ, i < W →
        spread_factor W ((i : ℕ) : ℚ) =
          - spread_factor W (((W - 1 - i : ℕ)) : ℚ)) ∧
      (∀ i : ℕ, i < MAX_WAVELENGTHS →
        normalized_wavelength_factor i =
          - normalized_wavelength_factor (MAX_WAVELENGTHS - 1 - i)) := by
  intro W hW
  refine ⟨?_, ?_, ?_⟩
  · rintro ⟨k, hk⟩
    subst hk
    unfold spread_factor
    have hmid : (2 * k + 1 - 1) / 2 = k := by omega
    rw [hmid]
    have hnum : ((k : ℚ) - (((2 * k + 1 : ℕ) : ℚ) - 1) / 2) = 0 := by
      push_cast
      ring
    rw [hnum, zero_div]
  · intro i hi
    unfold spread_factor
    have hcast : (((W - 1 - i : ℕ)) : ℚ) = (W : ℚ) - 1 - (i : ℚ) := by
      rw [Nat.cast_sub (by omega : i ≤ W - 1),
        Nat.cast_sub (by omega : 1 ≤ W)]
      norm_num
    rw [hcast, ← neg_div]
    congr 1
    ring
  · intro i hi
    unfold MAX_WAVELENGTHS at hi
    have hi79 : (i : ℚ) ≤ 79 := by
      exact_mod_cast Nat.lt_succ_iff.mp hi
    have e1 : effective_wavelength i = (i : ℚ) := by
      unfold effective_wavelength MAX_WAVELENGTHS
      refine min_eq_left ?_
      push_cast
      linarith
    have e2 : effective_wavelength (MAX_WAVELENGTHS - 1 - i) = 79 - (i : ℚ) := by
      unfold effective_wavelength MAX_WAVELENGTHS
      have hn : (80 : ℕ) - 1 - i = 79 - i := by omega
      have hc : (((80 : ℕ) - 1 - i : ℕ) : ℚ) = 79 - (i : ℚ) := by
        rw [hn, Nat.cast_sub (by omega : i ≤ 79)]
        norm_num
      rw [hc]
      refine min_eq_left ?_
      push_cast
      linarith
    unfold normalized_wavelength_factor
    rw [e1, e2, ← neg_div]
    congr 1
    unfold MAX_WAVELENGTHS
    push_cast
    ring

/-- Witness for C7 at the odd capacity `W = 81` and at the code's capacity,
with index `3` paired against its mirror. -/
theorem C7_wavelength_symmetry_witness :
    spread_factor 81 (((81 - 1) / 2 : ℕ) : ℚ) = 0 ∧
    spread_factor 81 ((3 : ℕ) : ℚ) =
      - spread_factor 81 (((81 - 1 - 3 : ℕ)) : ℚ) ∧
    normalized_wavelength_factor 3 =
      - normalized_wavelength_factor (MAX_WAVELENGTHS - 1 - 3) := by
  obtain ⟨h1, h2, h3⟩ := C7_wavelength_symmetry 81 (by norm_num)
  exact ⟨h1 ⟨40, by norm_num⟩, h2 3 (by norm_num),
    h3 3 (by norm_num [MAX_WAVELENGTHS])⟩

/-- C8: a wavelength index at or above `MAX_WAVELENGTHS = 80` is clamped to
`MAX_WAVELENGTHS - 1 = 79` (non-fatally — the clamp is total), an in-range
index is used unchanged, and the channel hue is the affine transform
`(effective + 0.5) / 80 * 180 + 30` of the clamped index. -/
theorem C8_wavelength_clamp :
    ∀ wavelength : ℕ,
      (wavelength < MAX_WAVELENGTHS →
        effective_wavelength wavelength = (wavelength : ℚ)) ∧
      (MAX_WAVELENGTHS ≤ wavelength →
        effective_wavelength wavelength = (MAX_WAVELENGTHS : ℚ) - 1) ∧
      hue_color wavelength =
        (effective_wavelength wavelength + 0.5) / (MAX_WAVELENGTHS : ℚ)
          * 180 + 30 := by
  intro w
  refine ⟨?_, ?_, rfl⟩
  · intro h
    unfold MAX_WAVELENGTHS at h
    unfold effective_wavelength MAX_WAVELENGTHS
    refine min_eq_left ?_
    have : (w : ℚ) ≤ 79 := by exact_mod_cast Nat.lt_succ_iff.mp h
    push_cast
    linarith
  · intro h
    unfold MAX_WAVELENGTHS at h
    unfold effective_wavelength MAX_WAVELENGTHS
    refine min_eq_right ?_
    have : (80 : ℚ) ≤ (w : ℚ) := by exact_mod_cast h
    push_cast
    linarith

/-- Witness for C8: the out-of-range index 100 clamps to 79, the in-range
index 7 is used unchanged. -/
theorem C8_wavelength_clamp_witness :
    effective_wavelength 100 = (MAX_WAVELENGTHS : ℚ) - 1 ∧
    effective_wavelength 7 = ((7 : ℕ) : ℚ) :=
  ⟨(C8_wavelength_clamp 100).2.1 (by norm_num [MAX_WAVELENGTHS]),
   (C8_wavelength_clamp 7).1 (by norm_num [MAX_WAVELENGTHS])⟩

/-! ## Helper lemmas: concrete vector evaluations -/

theorem V2.sub_mk (a b c d : ℝ) :
    (V2.mk a b) - (V2.mk c d) = V2.mk (a - c) (b - d) := rfl

theorem V2.length_mk (a b : ℝ) :
    (V2.mk a b).length = Real.sqrt (a ^ 2 + b ^ 2) := rfl

theorem V2.length_sub_self_lt_eps (p : V2) :
    (p - p).length < F32_EPSILON := by
  have h : p - p = V2.mk 0 0 := by
    obtain ⟨px, py⟩ := p
    rw [V2.sub_mk]
    norm_num
  rw [h, V2.length_mk]
  rw [show (0 : ℝ) ^ 2 + 0 ^ 2 = 0 by norm_num, Real.sqrt_zero]
  unfold F32_EPSILON
  norm_num

theorem V2.length_unit_x : (V2.mk 1 0).length = 1 := by
  rw [V2.length_mk, show (1 : ℝ) ^ 2 + 0 ^ 2 = 1 by norm_num, Real.sqrt_one]

theorem V2.length_unit_y : (V2.mk 0 1).length = 1 := by
  rw [V2.length_mk, show (0 : ℝ) ^ 2 + 1 ^ 2 = 1 by norm_num, Real.sqrt_one]

theorem one_not_lt_eps : ¬((1 : ℝ) < F32_EPSILON) := by
  unfold F32_EPSILON
  norm_num

/-! ## Claim theorems: layout geometry -/

/-- C9: at an interior node whose three involved node ids resolve and whose
adjacent hops are non-degenerate, the emitted elbow segment's endpoints
coincide exactly with the adjacent per-hop lane endpoints: the elbow starts at
the outgoing hop's start position and ends at the incoming hop's end
position. -/
theorem C9_elbow_joins_lanes :
    ∀ (scene : Scene) (svc : ServiceData) (color : ColorSpec) (angle : ℝ)
      (i : ℕ) (spos mpos tpos : V2),
      scene.nodePos (svc.path.getD i "") = some spos →
      scene.nodePos (svc.path.getD (i + 1) "") = some mpos →
      scene.nodePos (svc.path.getD (i + 2) "") = some tpos →
      ¬((mpos - spos).length < F32_EPSILON) →
      ¬((tpos - mpos).length < F32_EPSILON) →
      ∃ a b a' b',
        (hopBody scene svc false color angle i).line.map
          LineVertex.position = [a, b] ∧
        (hopBody scene svc false color angle (i + 1)).line.map
          LineVertex.position = [a', b'] ∧
        (elbowBody scene svc false color angle i).line.map
          LineVertex.position = [a', b] := by
  intro scene svc color angle i spos mpos tpos h1 h2 h3 h4 h5
  refine ⟨spos + ((mpos - spos).normalize.smul BASE_NODE_RADIUS).rotate
      (V2.fromAngle (angle * upwardScale (mpos - spos).normalize)),
    mpos - ((mpos - spos).normalize.smul BASE_NODE_RADIUS).rotate
      (V2.fromAngle (-(angle * upwardScale (mpos - spos).normalize))),
    mpos + ((tpos - mpos).normalize.smul BASE_NODE_RADIUS).rotate
      (V2.fromAngle (angle * upwardScale (tpos - mpos).normalize)),
    tpos - ((tpos - mpos).normalize.smul BASE_NODE_RADIUS).rotate
      (V2.fromAngle (-(angle * upwardScale (tpos - mpos).normalize))),
    ?_, ?_, ?_⟩
  · unfold hopBody
    simp only [h1, h2]
    rw [if_neg h4]
    simp
  · unfold hopBody
    simp only [show i + 1 + 1 = i + 2 from rfl, h2, h3]
    rw [if_neg h5]
    simp
  · unfold elbowBody
    simp only [h1, h2, h3]
    simp

/-- Witness for C9 on the concrete scene `A=(0,0), B=(1,0), C=(1,1)` with the
path `A → B → C`, wavelength angle `0`, at interior index `0`. -/
theorem C9_elbow_joins_lanes_witness :
    ∃ a b a' b',
      (hopBody c9Scene pathABCService false linkBoundaryColor 0 0).line.map
        LineVertex.position = [a, b] ∧
      (hopBody c9Scene pathABCService false linkBoundaryColor 0 (0 + 1)).line.map
        LineVertex.position = [a', b'] ∧
      (elbowBody c9Scene pathABCService false linkBoundaryColor 0 0).line.map
        LineVertex.position = [a', b] :=
  C9_elbow_joins_lanes c9Scene pathABCService linkBoundaryColor 0 0
    ⟨0, 0⟩ ⟨1, 0⟩ ⟨1, 1⟩ rfl rfl rfl
    (by
      have e : (V2.mk 1 0 - V2.mk 0 0) = V2.mk 1 0 := by
        rw [V2.sub_mk]; norm_num
      rw [e, V2.length_unit_x]
      exact one_not_lt_eps)
    (by
      have e : (V2.mk 1 1 - V2.mk 1 0) = V2.mk 0 1 := by
        rw [V2.sub_mk]; norm_num
      rw [e, V2.length_unit_y]
      exact one_not_lt_eps)

/-- C4: the claim is the spec's degenerate-skip policy; Steps 2 and 5 do skip
a coincident-endpoint segment (first two conjuncts), but the Step 6 interior
elbow loop performs no such check: on the scene where nodes `A` and `B`
coincide, the elbow at `B` still emits its two line vertices — in the Rust
code these are computed from `Vec2::normalize` of a zero-length vector, i.e.
NaN geometry. -/
theorem C4_elbow_missing_degenerate_skip :
    (linkBody c4Scene ⟨"A", "B", "ab"⟩).line = [] ∧
    (hopBody c4Scene pathABCService false linkBoundaryColor 0 0).line = [] ∧
    (elbowBody c4Scene pathABCService false linkBoundaryColor 0 0).line.length
      = 2 := by
  have hdeg : ((V2.mk 0 0 : V2) - V2.mk 0 0).length < F32_EPSILON :=
    V2.length_sub_self_lt_eps _
  refine ⟨?_, ?_, ?_⟩
  · unfold linkBody
    simp only [show c4Scene.nodePos "A" = some ⟨0, 0⟩ from rfl,
      show c4Scene.nodePos "B" = some ⟨0, 0⟩ from rfl]
    rw [if_pos hdeg]
    rfl
  · unfold hopBody
    simp only [show c4Scene.nodePos (pathABCService.path.getD 0 "") =
        some ⟨0, 0⟩ from rfl,
      show c4Scene.nodePos (pathABCService.path.getD 1 "") =
        some ⟨0, 0⟩ from rfl]
    rw [if_pos hdeg]
    rfl
  · unfold elbowBody
    simp only [show c4Scene.nodePos (pathABCService.path.getD 0 "") =
        some ⟨0, 0⟩ from rfl,
      show c4Scene.nodePos (pathABCService.path.getD 1 "") =
        some ⟨0, 0⟩ from rfl,
      show c4Scene.nodePos (pathABCService.path.getD 2 "") =
        some ⟨1, 0⟩ from rfl]
    simp

theorem GenOut.append_line (a b : GenOut) :
    (a.append b).line = a.line ++ b.line := rfl

theorem GenOut.append_hline (a b : GenOut) :
    (a.append b).hline = a.hline ++ b.hline := rfl

theorem GenOut.append_labels (a b : GenOut) :
    (a.append b).labels = a.labels ++ b.labels := rfl

/-- C3 counterexample: a service that is active at the query time
(`arrival ≤ 5 < departure`) yet emits no geometry at all, because its path
references node ids absent from the topology — the "if" direction of the
claimed equivalence fails. -/
theorem C3_counterexample :
    (c3Service.arrival_time ≤ c3Scene.current_time_selection ∧
      c3Scene.current_time_selection < c3Service.departure_time) ∧
    serviceOut c3Scene 5 c3Service = GenOut.empty := by
  have hact : c3Service.arrival_time ≤ c3Scene.current_time_selection ∧
      c3Scene.current_time_selection < c3Service.departure_time := by decide
  refine ⟨hact, ?_⟩
  unfold serviceOut
  rw [if_pos hact]
  simp [joinOuts, GenOut.append, GenOut.empty, hopBody, c3Service, c3Scene,
    sampleService, Scene.nodePos, List.lookup,
    show List.range 1 = [0] from by decide]

/-- C3 (amended): the activity window `arrival_time ≤ t < departure_time` is
the layout pass's eligibility gate for a reconstructed service: an inactive
service emits no geometry at all (the reconstructor itself never enforces the
window — the gate sits in the layout loop); and an active, non-highlighted
service whose first hop resolves to two known, non-coincident node positions
does emit line geometry. -/
theorem C3_activity_gate :
    (∀ (scene : Scene) (service_id : ℤ) (svc : ServiceData),
      ¬(svc.arrival_time ≤ scene.current_time_selection ∧
        scene.current_time_selection < svc.departure_time) →
      serviceOut scene service_id svc = GenOut.empty) ∧
    (∀ (scene : Scene) (service_id : ℤ) (svc : ServiceData) (p q : V2),
      svc.arrival_time ≤ scene.current_time_selection →
      scene.current_time_selection < svc.departure_time →
      isHighlightedIn scene.highlight_service_id_list service_id = false →
      2 ≤ svc.path.length →
      scene.nodePos (svc.path.getD 0 "") = some p →
      scene.nodePos (svc.path.getD 1 "") = some q →
      ¬((q - p).length < F32_EPSILON) →
      (serviceOut scene service_id svc).line ≠ []) := by
  constructor
  · intro scene sid svc h
    unfold serviceOut
    rw [if_neg h]
  · intro scene sid svc p q ha hd hhl hlen hp hq hg
    unfold serviceOut
    rw [if_pos ⟨ha, hd⟩]
    simp only [hhl]
    rw [GenOut.append_line, joinOuts_line]
    intro hcontra
    have hc1 := (List.append_eq_nil.mp hcontra).1
    have h0 : (0 : ℕ) ∈ List.range (svc.path.length - 1) :=
      List.mem_range.mpr (by omega)
    have hmem : (hopBody scene svc false
        (serviceColor scene.highlight_service_id_list false svc.wavelength)
        (wavelength_rotate_angle svc.wavelength) 0) ∈
        (List.range (svc.path.length - 1)).map (hopBody scene svc false
          (serviceColor scene.highlight_service_id_list false svc.wavelength)
          (wavelength_rotate_angle svc.wavelength)) :=
      List.mem_map_of_mem _ h0
    have hempty := (List.flatMap_eq_nil_iff.mp hc1) _ hmem
    revert hempty
    unfold hopBody
    simp only [hp, hq]
    rw [if_neg hg]
    simp

/-- Witness for C3: the active two-node service on the concrete scene with
known distinct nodes emits line geometry; an inactive service (departed
before the query time) emits nothing. -/
theorem C3_activity_gate_witness :
    (serviceOut c9Scene 5 sampleService).line ≠ [] ∧
    serviceOut c3Scene 5 { sampleService with departure_time := 3 } =
      GenOut.empty :=
  ⟨C3_activity_gate.2 c9Scene 5 sampleService ⟨0, 0⟩ ⟨1, 0⟩ (by decide)
      (by decide) rfl (by decide) rfl rfl
      (by
        have e : (V2.mk 1 0 - V2.mk 0 0) = V2.mk 1 0 := by
          rw [V2.sub_mk]; norm_num
        rw [e, V2.length_unit_x]
        exact one_not_lt_eps),
    C3_activity_gate.1 c3Scene 5 { sampleService with departure_time := 3 }
      (by decide)⟩

theorem hopBody_color_invariant (scene : Scene) (svc : ServiceData)
    (angle : ℝ) (i : ℕ) (c c' : ColorSpec) :
    (hopBody scene svc false c angle i).line.map LineVertex.position =
      (hopBody scene svc false c' angle i).line.map LineVertex.position ∧
    (hopBody scene svc false c angle i).hline = [] ∧
    (hopBody scene svc false c angle i).labels = [] := by
  unfold hopBody
  rcases hA : scene.nodePos (svc.path.getD i "") with _ | p
  · simp only [hA]
    simp [GenOut.empty]
  · rcases hB : scene.nodePos (svc.path.getD (i + 1) "") with _ | q
    · simp only [hA, hB]
      simp [GenOut.empty]
    · simp only [hA, hB]
      by_cases hlen : (q - p).length < F32_EPSILON
      · simp [hlen, GenOut.empty]
      · simp [hlen, GenOut.empty]

theorem elbowBody_color_invariant (scene : Scene) (svc : ServiceData)
    (angle : ℝ) (i : ℕ) (c c' : ColorSpec) :
    (elbowBody scene svc false c angle i).line.map LineVertex.position =
      (elbowBody scene svc false c' angle i).line.map LineVertex.position ∧
    (elbowBody scene svc false c angle i).hline = [] ∧
    (elbowBody scene svc false c angle i).labels = [] := by
  unfold elbowBody
  rcases hA : scene.nodePos (svc.path.getD i "") with _ | p
  · simp only [hA]
    simp [GenOut.empty]
  · rcases hB : scene.nodePos (svc.path.getD (i + 1) "") with _ | q
    · simp only [hA, hB]
      simp [GenOut.empty]
    · rcases hC : scene.nodePos (svc.path.getD (i + 2) "") with _ | r
      · simp only [hA, hB, hC]
        simp [GenOut.empty]
      · simp only [hA, hB, hC]
        simp [GenOut.empty]

/-- C5: for a service not in the active highlight list, the emitted segment
endpoint positions with the highlight active are identical to those with no
highlight active (only the colour differs); the service contributes nothing
to the highlight-quad or label streams in either run; and every node not on a
highlighted service's path keeps the same (default) colour in both runs. -/
theorem C5_highlight_isolation :
    ∀ (nodes : List (String × V2)) (conns : List Connection)
      (events : List AnyEvent) (t : ℚ) (hl : List ℤ) (service_id : ℤ)
      (svc : ServiceData),
      isHighlightedIn (some hl) service_id = false →
      ((serviceOut ⟨nodes, conns, events, t, some hl⟩ service_id svc).line.map
          LineVertex.position =
        (serviceOut ⟨nodes, conns, events, t, none⟩ service_id svc).line.map
          LineVertex.position) ∧
      (serviceOut ⟨nodes, conns, events, t, some hl⟩ service_id svc).hline
        = [] ∧
      (serviceOut ⟨nodes, conns, events, t, none⟩ service_id svc).hline
        = [] ∧
      (serviceOut ⟨nodes, conns, events, t, some hl⟩ service_id svc).labels
        = [] ∧
      (serviceOut ⟨nodes, conns, events, t, none⟩ service_id svc).labels
        = [] ∧
      (∀ node_id, node_id ∉ nodesInHighlightedServices
          ⟨nodes, conns, events, t, some hl⟩ →
        nodeColorAfter ⟨nodes, conns, events, t, some hl⟩ node_id =
          nodeColorAfter ⟨nodes, conns, events, t, none⟩ node_id) := by
  intro nodes conns events t hl sid svc hhl
  have hnode : ∀ node_id, node_id ∉ nodesInHighlightedServices
      ⟨nodes, conns, events, t, some hl⟩ →
      nodeColorAfter ⟨nodes, conns, events, t, some hl⟩ node_id =
        nodeColorAfter ⟨nodes, conns, events, t, none⟩ node_id := by
    intro nid hnid
    unfold nodeColorAfter
    rw [if_neg hnid, if_neg (by simp [nodesInHighlightedServices])]
  by_cases hact : svc.arrival_time ≤ t ∧ t < svc.departure_time
  · have hOn : serviceOut ⟨nodes, conns, events, t, some hl⟩ sid svc =
        (joinOuts ((List.range (svc.path.length - 1)).map
          (hopBody ⟨nodes, conns, events, t, some hl⟩ svc false
            (serviceColor (some hl) false svc.wavelength)
            (wavelength_rotate_angle svc.wavelength)))).append
        (joinOuts ((List.range (svc.path.length - 2)).map
          (elbowBody ⟨nodes, conns, events, t, some hl⟩ svc false
            (serviceColor (some hl) false svc.wavelength)
            (wavelength_rotate_angle svc.wavelength)))) := by
      unfold serviceOut
      dsimp only
      rw [if_pos hact]
      simp only [hhl]
    have hOff : serviceOut ⟨nodes, conns, events, t, none⟩ sid svc =
        (joinOuts ((List.range (svc.path.length - 1)).map
          (hopBody ⟨nodes, conns, events, t, none⟩ svc false
            (serviceColor none false svc.wavelength)
            (wavelength_rotate_angle svc.wavelength)))).append
        (joinOuts ((List.range (svc.path.length - 2)).map
          (elbowBody ⟨nodes, conns, events, t, none⟩ svc false
            (serviceColor none false svc.wavelength)
            (wavelength_rotate_angle svc.wavelength)))) := by
      unfold serviceOut
      dsimp only [isHighlightedIn]
      rw [if_pos hact]
    refine ⟨?_, ?_, ?_, ?_, ?_, hnode⟩
    · rw [hOn, hOff, GenOut.append_line, GenOut.append_line, joinOuts_line,
        joinOuts_line, joinOuts_line, joinOuts_line, List.map_append,
        List.map_append]
      congr 1
      · rw [List.flatMap_map, List.flatMap_map, List.map_flatMap _ _ _,
          List.map_flatMap _ _ _]
        have hfun : (fun i => (hopBody ⟨nodes, conns, events, t, some hl⟩ svc
            false (serviceColor (some hl) false svc.wavelength)
            (wavelength_rotate_angle svc.wavelength) i).line.map
              LineVertex.position) =
            (fun i => (hopBody ⟨nodes, conns, events, t, none⟩ svc false
              (serviceColor none false svc.wavelength)
              (wavelength_rotate_angle svc.wavelength) i).line.map
                LineVertex.position) := by
          funext i
          rw [show hopBody ⟨nodes, conns, events, t, some hl⟩ svc false
              (serviceColor (some hl) false svc.wavelength)
              (wavelength_rotate_angle svc.wavelength) i =
            hopBody ⟨nodes, conns, events, t, none⟩ svc false
              (serviceColor (some hl) false svc.wavelength)
              (wavelength_rotate_angle svc.wavelength) i from rfl]
          exact (hopBody_color_invariant ⟨nodes, conns, events, t, none⟩ svc
            (wavelength_rotate_angle svc.wavelength) i
            (serviceColor (some hl) false svc.wavelength)
            (serviceColor none false svc.wavelength)).1
        rw [hfun]
      · rw [List.flatMap_map, List.flatMap_map, List.map_flatMap _ _ _,
          List.map_flatMap _ _ _]
        have hfun : (fun i => (elbowBody ⟨nodes, conns, events, t, some hl⟩
            svc false (serviceColor (some hl) false svc.wavelength)
            (wavelength_rotate_angle svc.wavelength) i).line.map
              LineVertex.position) =
            (fun i => (elbowBody ⟨nodes, conns, events, t, none⟩ svc false
              (serviceColor none false svc.wavelength)
              (wavelength_rotate_angle svc.wavelength) i).line.map
                LineVertex.position) := by
          funext i
          rw [show elbowBody ⟨nodes, conns, events, t, some hl⟩ svc false
              (serviceColor (some hl) false svc.wavelength)
              (wavelength_rotate_angle svc.wavelength) i =
            elbowBody ⟨nodes, conns, events, t, none⟩ svc false
              (serviceColor (some hl) false svc.wavelength)
              (wavelength_rotate_angle svc.wavelength) i from rfl]
          exact (elbowBody_color_invariant ⟨nodes, conns, events, t, none⟩ svc
            (wavelength_rotate_angle svc.wavelength) i
            (serviceColor (some hl) false svc.wavelength)
            (serviceColor none false svc.wavelength)).1
        rw [hfun]
    · rw [hOn, GenOut.append_hline, joinOuts_hline, joinOuts_hline,
        List.flatMap_map, List.flatMap_map]
      refine List.append_eq_nil.mpr ⟨?_, ?_⟩
      · exact List.flatMap_eq_nil_iff.mpr fun i _ =>
          (hopBody_color_invariant _ svc _ i (serviceColor (some hl) false svc.wavelength) (serviceColor (some hl) false svc.wavelength)).2.1
      · exact List.flatMap_eq_nil_iff.mpr fun i _ =>
          (elbowBody_color_invariant _ svc _ i (serviceColor (some hl) false svc.wavelength) (serviceColor (some hl) false svc.wavelength)).2.1
    · rw [hOff, GenOut.append_hline, joinOuts_hline, joinOuts_hline,
        List.flatMap_map, List.flatMap_map]
      refine List.append_eq_nil.mpr ⟨?_, ?_⟩
      · exact List.flatMap_eq_nil_iff.mpr fun i _ =>
          (hopBody_color_invariant _ svc _ i (serviceColor none false svc.wavelength) (serviceColor none false svc.wavelength)).2.1
      · exact List.flatMap_eq_nil_iff.mpr fun i _ =>
          (elbowBody_color_invariant _ svc _ i (serviceColor none false svc.wavelength) (serviceColor none false svc.wavelength)).2.1
    · rw [hOn, GenOut.append_labels, joinOuts_labels, joinOuts_labels,
        List.flatMap_map, List.flatMap_map]
      refine List.append_eq_nil.mpr ⟨?_, ?_⟩
      · exact List.flatMap_eq_nil_iff.mpr fun i _ =>
          (hopBody_color_invariant _ svc _ i (serviceColor (some hl) false svc.wavelength) (serviceColor (some hl) false svc.wavelength)).2.2
      · exact List.flatMap_eq_nil_iff.mpr fun i _ =>
          (elbowBody_color_invariant _ svc _ i (serviceColor (some hl) false svc.wavelength) (serviceColor (some hl) false svc.wavelength)).2.2
    · rw [hOff, GenOut.append_labels, joinOuts_labels, joinOuts_labels,
        List.flatMap_map, List.flatMap_map]
      refine List.append_eq_nil.mpr ⟨?_, ?_⟩
      · exact List.flatMap_eq_nil_iff.mpr fun i _ =>
          (hopBody_color_invariant _ svc _ i (serviceColor none false svc.wavelength) (serviceColor none false svc.wavelength)).2.2
      · exact List.flatMap_eq_nil_iff.mpr fun i _ =>
          (elbowBody_color_invariant _ svc _ i (serviceColor none false svc.wavelength) (serviceColor none false svc.wavelength)).2.2
  · have h1 : serviceOut ⟨nodes, conns, events, t, some hl⟩ sid svc =
        GenOut.empty := by
      unfold serviceOut
      dsimp only
      rw [if_neg hact]
    have h2 : serviceOut ⟨nodes, conns, events, t, none⟩ sid svc =
        GenOut.empty := by
      unfold serviceOut
      dsimp only
      rw [if_neg hact]
    rw [h1, h2]
    exact ⟨rfl, rfl, rfl, rfl, rfl, hnode⟩

/-- Witness for C5: service id 5 is outside the active highlight list `[3]`;
the theorem instantiates on a concrete one-node topology. -/
theorem C5_highlight_isolation_witness :
    ((serviceOut ⟨[("A", ⟨0, 0⟩)], [], [], 0, some [3]⟩ 5 sampleService).line.map
        LineVertex.position =
      (serviceOut ⟨[("A", ⟨0, 0⟩)], [], [], 0, none⟩ 5 sampleService).line.map
        LineVertex.position) ∧
    (serviceOut ⟨[("A", ⟨0, 0⟩)], [], [], 0, some [3]⟩ 5 sampleService).hline
      = [] ∧
    (serviceOut ⟨[("A", ⟨0, 0⟩)], [], [], 0, none⟩ 5 sampleService).hline
      = [] ∧
    (serviceOut ⟨[("A", ⟨0, 0⟩)], [], [], 0, some [3]⟩ 5 sampleService).labels
      = [] ∧
    (serviceOut ⟨[("A", ⟨0, 0⟩)], [], [], 0, none⟩ 5 sampleService).labels
      = [] ∧
    (∀ node_id, node_id ∉ nodesInHighlightedServices
        ⟨[("A", ⟨0, 0⟩)], [], [], 0, some [3]⟩ →
      nodeColorAfter ⟨[("A", ⟨0, 0⟩)], [], [], 0, some [3]⟩ node_id =
        nodeColorAfter ⟨[("A", ⟨0, 0⟩)], [], [], 0, none⟩ node_id) :=
  C5_highlight_isolation [("A", ⟨0, 0⟩)] [] [] 0 [3] 5 sampleService
    (by decide)
